import Mathlib

/-!
Verification of the partner-backend access-control and workflow core.

The definitions below are a shallow embedding of the repository's route
handlers (routes file), the authentication middleware (auth file) and the
SQLite schema (src/database.js).  Tables become lists of records, SQL
queries become list operations, and each route handler becomes a function
from the database state and the authenticated actor to a typed HTTP-style
response paired with the next database state.  External collaborators
(bcrypt hashing, JWT signing, outbound e-mail) are outside the modelled
core: e-mail dispatch is fire-and-forget and never affects the response or
the stored state, so it is omitted; the stored password field stands for
the uninterpreted bcrypt hash of the input.
-/

namespace PartnerBackend

/-- A row of the users table (database.js): id, email, password hash, name,
role (the schema CHECK allows only the strings founder and board) and the
board-only specialty column.  Profile columns not read by any modelled
handler are omitted. -/
structure User where
  id : Nat
  email : String
  password : String
  name : String
  role : String
  specialty : Option String
  deriving Repr, DecidableEq

/-- A row of the submissions table: owner foreign key, the text columns the
list filters read, the status string (CHECK: new, under_review, more_info,
approved, passed), the nullable REAL rating and the submission timestamp
(modelled as a Nat so that ORDER BY is a total order). -/
structure Submission where
  id : Nat
  user_id : Nat
  company_name : String
  one_liner : String
  industry : String
  status : String
  rating : Option ℚ
  submitted_at : Nat
  deriving Repr, DecidableEq

/-- A row of the board_notes table; founder_visible is the INTEGER 0/1 flag
modelled as Bool, created_at as a Nat timestamp. -/
structure BoardNote where
  id : Nat
  submission_id : Nat
  user_id : Nat
  text : String
  founder_visible : Bool
  created_at : Nat
  deriving Repr, DecidableEq

/-- A row of the chat_messages table (only the columns the modelled
handlers read). -/
structure ChatMessage where
  id : Nat
  submission_id : Nat
  user_id : Nat
  text : String
  deriving Repr, DecidableEq

/-- A row of the partnerships table: UNIQUE(submission_id, user_id) pair,
status string (CHECK: pending, accepted, declined, DEFAULT pending),
created_at and the nullable responded_at. -/
structure Partnership where
  id : Nat
  submission_id : Nat
  user_id : Nat
  status : String
  created_at : Nat
  responded_at : Option Nat
  deriving Repr, DecidableEq

/-- The relational store: one list per modelled table, AUTOINCREMENT
counters for the two tables the modelled handlers insert into, and the
current CURRENT_TIMESTAMP value. -/
structure DB where
  users : List User
  submissions : List Submission
  board_notes : List BoardNote
  chat_messages : List ChatMessage
  partnerships : List Partnership
  nextUserId : Nat
  nextPartnershipId : Nat
  now : Nat
  deriving Repr, DecidableEq

/-- An HTTP-style handler result: res.status(code).json(payload) for a
success, or res.status(code).json(error message) for a failure. -/
inductive Resp (α : Type) where
  | json : Nat → α → Resp α
  | error : Nat → String → Resp α
  deriving Repr, DecidableEq

/-- The requireRole middleware (auth file): an admin passes any role
requirement, otherwise the user role must equal the required role; a
failing check answers 403 before the handler body runs. -/
def requireRole (required : String) (userRole : String) : Bool :=
  if userRole == "admin" then true
  else if userRole != required then false
  else true

/-- JavaScript truthiness of an optional request-body string: undefined and
the empty string are falsy. -/
def strFalsy : Option String → Bool
  | none => true
  | some s => s == ""

/-- ASCII lowercasing of one character, the behaviour of
String.prototype.toLowerCase on the ASCII range used by the handlers. -/
def jsLowerChar (c : Char) : Char :=
  if 65 ≤ c.toNat ∧ c.toNat ≤ 90 then Char.ofNat (c.toNat + 32) else c

/-- email.toLowerCase() as applied by the register and board-member
creation handlers before storing or comparing an email. -/
def lowerString (s : String) : String := ⟨s.data.map jsLowerChar⟩

/-- POST /auth/register: 400 when name, email or password is falsy; 400
when the password has fewer than 8 characters; 409 when a user row already
holds the lowercased email; otherwise inserts a new user with the
lowercased email and role founder and answers 201. -/
def register (db : DB) (name email password : Option String) :
    Resp User × DB :=
  if strFalsy name || strFalsy email || strFalsy password then
    (.error 400 "Name, email, and password are required", db)
  else
    let pw := password.getD ""
    if pw.length < 8 then
      (.error 400 "Password must be at least 8 characters", db)
    else
      let em := lowerString (email.getD "")
      if (db.users.find? (fun u => u.email == em)).isSome then
        (.error 409 "An account with this email already exists", db)
      else
        let u : User :=
          { id := db.nextUserId, email := em, password := pw,
            name := name.getD "", role := "founder", specialty := none }
        (.json 201 u,
         { db with users := db.users ++ [u], nextUserId := db.nextUserId + 1 })

/-- POST /admin/board-members (admin only): 400 when name, email or
password is falsy; 409 when the lowercased email exists; otherwise inserts
a user with role board and the given specialty (empty string coerced to
NULL by the specialty-or-null expression) and answers 201. -/
def createBoardMember (db : DB) (actor : User)
    (name email password specialty : Option String) : Resp User × DB :=
  if requireRole "admin" actor.role = false then
    (.error 403 "Access restricted to admin members", db)
  else if strFalsy name || strFalsy email || strFalsy password then
    (.error 400 "Name, email, and password required", db)
  else
    let em := lowerString (email.getD "")
    if (db.users.find? (fun u => u.email == em)).isSome then
      (.error 409 "Email already exists", db)
    else
      let u : User :=
        { id := db.nextUserId, email := em, password := password.getD "",
          name := name.getD "", role := "board",
          specialty := if strFalsy specialty then none else specialty }
      (.json 201 u,
       { db with users := db.users ++ [u], nextUserId := db.nextUserId + 1 })

/-- The users table CHECK constraint of database.js: role must be the
string founder or the string board; the value admin is excluded. -/
def usersRoleCheck (role : String) : Bool :=
  role == "founder" || role == "board"

/-- The five-element valid status list of the PATCH status handler,
matching the submissions table CHECK constraint. -/
def validStatuses : List String :=
  ["new", "under_review", "more_info", "approved", "passed"]

/-- The per-submission board-note query shared by the list and detail
handlers: notes of the submission, restricted to founder_visible rows when
the reader's role is founder (the noteCondition string), ordered by
created_at ascending. -/
def visibleNotes (db : DB) (actorRole : String) (subId : Nat) :
    List BoardNote :=
  (db.board_notes.filter (fun n =>
      n.submission_id == subId &&
        (if actorRole == "founder" then n.founder_visible else true))).mergeSort
    (fun a b => decide (a.created_at ≤ b.created_at))

/-- The payload of GET /submissions/:id as far as the verified claims read
it: the submission row and the role-filtered notes; the further
display-only joins of the handler (tagged members, chat thread, partner
and meeting lists with author names) are not modelled. -/
structure SubmissionView where
  submission : Submission
  notes : List BoardNote
  deriving Repr, DecidableEq

/-- GET /submissions/:id: the SELECT joins users on the owner key, so a
dangling owner behaves like an absent row; 404 when no row matches, then
403 when the reader is a founder who is not the owner, otherwise the
enriched payload. -/
def getSubmission (db : DB) (actor : User) (id : Nat) : Resp SubmissionView :=
  match (db.submissions.filter (fun s =>
      db.users.any (fun u => u.id == s.user_id))).find?
      (fun s => s.id == id) with
  | none => .error 404 "Submission not found"
  | some sub =>
    if actor.role == "founder" && sub.user_id != actor.id then
      .error 403 "Access denied"
    else
      .json 200 { submission := sub, notes := visibleNotes db actor.role sub.id }

/-- The optional query parameters of GET /submissions. -/
structure SubmissionQuery where
  status : Option String
  industry : Option String
  search : Option String
  deriving Repr, DecidableEq

/-- Whether the first character list starts the second. -/
def startsWithChars : List Char → List Char → Bool
  | [], _ => true
  | _ :: _, [] => false
  | p :: ps, c :: cs => p == c && startsWithChars ps cs

/-- Whether the first character list occurs contiguously in the second. -/
def containsChars (pat : List Char) : List Char → Bool
  | [] => pat.isEmpty
  | c :: cs => startsWithChars pat (c :: cs) || containsChars pat cs

/-- SQLite LIKE with percent wildcards on both sides: case-insensitive
(ASCII) substring containment. -/
def likeContains (pat : String) (s : String) : Bool :=
  containsChars (lowerString pat).data (lowerString s).data

/-- The dynamically built WHERE clause of GET /submissions: the founder
role scoping condition, then the optional status, industry and search
conditions, combined with AND. -/
def matchesQuery (actor : User) (q : SubmissionQuery) (s : Submission) : Bool :=
  (if actor.role == "founder" then s.user_id == actor.id else true)
  && (match q.status with
      | some st => if st != "" && st != "all" then s.status == st else true
      | none => true)
  && (match q.industry with
      | some ind => if ind != "" && ind != "all" then s.industry == ind else true
      | none => true)
  && (match q.search with
      | some term =>
        if term != "" then
          likeContains term s.company_name || likeContains term s.one_liner
            || likeContains term s.industry
        else true
      | none => true)

/-- The submission rows returned by GET /submissions: the users join, the
built WHERE clause, then ORDER BY submitted_at DESC. -/
def listedSubmissions (db : DB) (actor : User) (q : SubmissionQuery) :
    List Submission :=
  ((db.submissions.filter (fun s =>
      db.users.any (fun u => u.id == s.user_id))).filter
      (matchesQuery actor q)).mergeSort
    (fun a b => decide (b.submitted_at ≤ a.submitted_at))

/-- One element of the GET /submissions response: the row, the
role-filtered notes and the board-only chat count (0 for other readers);
the tagged-members join is display-only and not modelled. -/
structure SubmissionListEntry where
  submission : Submission
  notes : List BoardNote
  chat_count : Nat
  deriving Repr, DecidableEq

/-- The per-row enrichment loop of GET /submissions. -/
def enrichEntry (db : DB) (actor : User) (sub : Submission) :
    SubmissionListEntry :=
  { submission := sub,
    notes := visibleNotes db actor.role sub.id,
    chat_count :=
      if actor.role == "board" then
        db.chat_messages.countP (fun c => c.submission_id == sub.id)
      else 0 }

/-- GET /submissions: role-scoped, filtered, enriched list. -/
def listSubmissions (db : DB) (actor : User) (q : SubmissionQuery) :
    Resp (List SubmissionListEntry) :=
  .json 200 ((listedSubmissions db actor q).map (enrichEntry db actor))

/-- PATCH /submissions/:id/status (board only): 400 unless the status is in
the valid list, otherwise UPDATE submissions SET status WHERE id (a no-op
when no row matches) and a success answer either way; the follow-up
founder e-mail is the fire-and-forget external collaborator and changes
neither the state nor the response. -/
def patchSubmissionStatus (db : DB) (actor : User) (id : Nat)
    (status : String) : Resp String × DB :=
  if requireRole "board" actor.role = false then
    (.error 403 "Access restricted to board members", db)
  else if (validStatuses.contains status) = false then
    (.error 400 "Invalid status", db)
  else
    (.json 200 status,
     { db with submissions := db.submissions.map (fun s =>
         if s.id == id then { s with status := status } else s) })

/-- PATCH /submissions/:id/rating (board only): 400 when the body rating is
falsy (absent or the number 0), below 1 or above 5; otherwise UPDATE
submissions SET rating WHERE id and a success answer, also when no row
matches. -/
def patchSubmissionRating (db : DB) (actor : User) (id : Nat)
    (rating : Option ℚ) : Resp ℚ × DB :=
  if requireRole "board" actor.role = false then
    (.error 403 "Access restricted to board members", db)
  else
    match rating with
    | none => (.error 400 "Rating must be between 1 and 5", db)
    | some r =>
      if r = 0 ∨ r < 1 ∨ r > 5 then
        (.error 400 "Rating must be between 1 and 5", db)
      else
        (.json 200 r,
         { db with submissions := db.submissions.map (fun s =>
             if s.id == id then { s with rating := some r } else s) })

/-- The active-partner COUNT query of the claim handler: partnerships of
the submission whose status is pending or accepted. -/
def activeCount (db : DB) (subId : Nat) : Nat :=
  db.partnerships.countP (fun p =>
    p.submission_id == subId && (p.status == "pending" || p.status == "accepted"))

/-- The number of partnership rows for one (submission, user) pair. -/
def pairCount (db : DB) (subId uid : Nat) : Nat :=
  db.partnerships.countP (fun p =>
    p.submission_id == subId && p.user_id == uid)

/-- POST /submissions/:id/partner (board only): 404 when the submission is
absent, 409 when any partnership row for the (submission, user) pair
exists regardless of status, 400 when the active-partner count is already
3 or more, otherwise inserts a pending row and answers 201 with it. -/
def claimPartner (db : DB) (actor : User) (subId : Nat) :
    Resp Partnership × DB :=
  if requireRole "board" actor.role = false then
    (.error 403 "Access restricted to board members", db)
  else
    match db.submissions.find? (fun s => s.id == subId) with
    | none => (.error 404 "Submission not found", db)
    | some _sub =>
      if (db.partnerships.find? (fun p =>
          p.submission_id == subId && p.user_id == actor.id)).isSome then
        (.error 409 "You have already requested to partner", db)
      else if 3 ≤ activeCount db subId then
        (.error 400 "Maximum 3 partners reached for this submission", db)
      else
        let p : Partnership :=
          { id := db.nextPartnershipId, submission_id := subId,
            user_id := actor.id, status := "pending",
            created_at := db.now, responded_at := none }
        (.json 201 p,
         { db with partnerships := db.partnerships ++ [p],
                   nextPartnershipId := db.nextPartnershipId + 1 })

/-- DELETE /submissions/:id/partner (board only): DELETE the pending row of
the (submission, user) pair; 400 when the statement changed no row,
success otherwise. -/
def withdrawPartner (db : DB) (actor : User) (subId : Nat) :
    Resp Bool × DB :=
  if requireRole "board" actor.role = false then
    (.error 403 "Access restricted to board members", db)
  else
    let remaining := db.partnerships.filter (fun p =>
      !(p.submission_id == subId && p.user_id == actor.id && p.status == "pending"))
    if remaining.length == db.partnerships.length then
      (.error 400 "No pending partnership to withdraw", db)
    else
      (.json 200 true, { db with partnerships := remaining })

/-- PATCH /partnerships/:id/respond (founder only): 400 unless the decision
is accepted or declined; the SELECT joins submissions for the owner key,
so 404 when the partnership (or its submission) is absent; 403 when the
actor is not the owning founder; 400 when the status is no longer pending;
otherwise UPDATE status and responded_at and answer success. -/
def respondPartnership (db : DB) (actor : User) (pid : Nat)
    (response : String) : Resp String × DB :=
  if requireRole "founder" actor.role = false then
    (.error 403 "Access restricted to founder members", db)
  else if (["accepted", "declined"].contains response) = false then
    (.error 400 "Response must be accepted or declined", db)
  else
    match db.partnerships.find? (fun p => p.id == pid) with
    | none => (.error 404 "Partnership not found", db)
    | some p =>
      match db.submissions.find? (fun s => s.id == p.submission_id) with
      | none => (.error 404 "Partnership not found", db)
      | some s =>
        if s.user_id != actor.id then (.error 403 "Access denied", db)
        else if p.status != "pending" then
          (.error 400 "Partnership already responded to", db)
        else
          (.json 200 response,
           { db with partnerships := db.partnerships.map (fun q =>
               if q.id == pid then
                 { q with status := response, responded_at := some db.now }
               else q) })

/-- The state produced by the UPDATE statement of the respond handler:
every partnership row carrying the responded id receives the decision and
the response timestamp. -/
def respondedState (db : DB) (pid : Nat) (r : String) : DB :=
  { db with partnerships := db.partnerships.map (fun q =>
      if q.id == pid then { q with status := r, responded_at := some db.now }
      else q) }

/-- JavaScript Math.round on a nonnegative rational: floor of the value
plus one half. -/
def jsRound (q : ℚ) : ℤ := (q + 1/2).floor

/-- The analytics payload fields the verified claims read: the counts, the
approval rate and the average-rating display, where none stands for the
string sentinel reported when AVG(rating) is NULL (or the falsy 0) and
some v for the formatted numeric average. -/
structure Analytics where
  total : Nat
  approved : Nat
  passed : Nat
  approvalRate : ℤ
  avgRatingDisplay : Option ℚ
  deriving Repr, DecidableEq

/-- The COUNT of approved submissions. -/
def approvedCount (db : DB) : Nat :=
  db.submissions.countP (fun s => s.status == "approved")

/-- The COUNT of passed submissions. -/
def passedCount (db : DB) : Nat :=
  db.submissions.countP (fun s => s.status == "passed")

/-- The aggregation body of GET /analytics: AVG(rating) over the non-null
ratings (NULL when there are none), then the truthiness test of the
response shape, and the approval rate as Math.round of
approved / (approved + passed) times 100, or 0 on a zero denominator. -/
def analyticsData (db : DB) : Analytics :=
  let ratings := db.submissions.filterMap (fun s => s.rating)
  let avgRating : Option ℚ :=
    if ratings.isEmpty then none else some (ratings.sum / ratings.length)
  let approved := approvedCount db
  let passed := passedCount db
  { total := db.submissions.length,
    approved := approved,
    passed := passed,
    approvalRate :=
      if 0 < approved + passed then
        jsRound ((approved : ℚ) / ((approved : ℚ) + (passed : ℚ)) * 100)
      else 0,
    avgRatingDisplay :=
      match avgRating with
      | none => none
      | some v => if v = 0 then none else some v }

/-- GET /analytics (board only). -/
def analytics (db : DB) (actor : User) : Resp Analytics :=
  if requireRole "board" actor.role = false then
    .error 403 "Access restricted to board members"
  else
    .json 200 (analyticsData db)

/-- Primary-key discipline of the partnerships table: row ids are distinct
and below the AUTOINCREMENT counter. -/
def DBWf (db : DB) : Prop :=
  (db.partnerships.map (fun p => p.id)).Nodup ∧
    ∀ p ∈ db.partnerships, p.id < db.nextPartnershipId

/-- One state transition of the partnership workflow: some actor runs the
claim, withdraw or respond endpoint. -/
def PartnerStep (db db' : DB) : Prop :=
  (∃ a s, db' = (claimPartner db a s).2) ∨
    (∃ a s, db' = (withdrawPartner db a s).2) ∨
      (∃ a p r, db' = (respondPartnership db a p r).2)

/-! Concrete sample data used by the witness theorems. -/

/-- Sample founder, owner of the sample submission. -/
def uFounder : User := ⟨1, "alice@demo.com", "hash1", "Alice", "founder", none⟩

/-- Sample founder who owns nothing. -/
def uFounder2 : User := ⟨2, "carol@demo.com", "hash2", "Carol", "founder", none⟩

/-- Sample board members. -/
def uBoard : User := ⟨3, "sarah@demo.com", "hash3", "Sarah", "board", some "FinTech"⟩

/-- Second sample board member. -/
def uBoard2 : User := ⟨4, "james@demo.com", "hash4", "James", "board", none⟩

/-- Third sample board member. -/
def uBoard3 : User := ⟨5, "maya@demo.com", "hash5", "Maya", "board", none⟩

/-- Fourth sample board member. -/
def uBoard4 : User := ⟨7, "dave@demo.com", "hash6", "Dave", "board", none⟩

/-- An actor whose credential carries the admin role. -/
def uAdmin : User := ⟨6, "admin@demo.com", "hash7", "Root", "admin", none⟩

/-- Sample submission owned by the sample founder. -/
def subNeural : Submission :=
  ⟨10, 1, "NeuralPay", "AI fraud detection", "FinTech", "new", none, 5⟩

/-- A founder-visible sample note. -/
def noteVisible : BoardNote := ⟨1, 10, 3, "strong team", true, 2⟩

/-- A board-only sample note. -/
def noteHidden : BoardNote := ⟨2, 10, 3, "needs diligence", false, 1⟩

/-- A declined sample partnership of the first board member. -/
def partDeclined : Partnership := ⟨20, 10, 3, "declined", 1, some 2⟩

/-- A pending sample partnership of the second board member. -/
def partPending : Partnership := ⟨21, 10, 4, "pending", 3, none⟩

/-- The basic sample database state. -/
def sampleDB : DB :=
  ⟨[uFounder, uFounder2, uBoard, uBoard2, uBoard3, uBoard4],
   [subNeural], [noteVisible, noteHidden], [],
   [partDeclined, partPending], 8, 30, 100⟩

/-- A state whose sample submission already carries three active
partnerships. -/
def capDB : DB :=
  { sampleDB with
    partnerships := [⟨20, 10, 3, "pending", 1, none⟩, ⟨21, 10, 4, "pending", 2, none⟩, ⟨22, 10, 5, "accepted", 3, some 4⟩],
    nextPartnershipId := 23 }

/-- A state holding exactly one (pending) partnership row. -/
def pairDB : DB := { sampleDB with partnerships := [partPending] }

/-- The state after the pending partnership of pairDB was withdrawn. -/
def pairDBafter : DB := { sampleDB with partnerships := [] }

/-- A state with two approved and one passed submission, none rated. -/
def analyticsDB : DB :=
  { sampleDB with
    submissions := [⟨11, 1, "A", "a", "X", "approved", none, 1⟩, ⟨12, 1, "B", "b", "X", "approved", none, 2⟩, ⟨13, 1, "C", "c", "X", "passed", none, 3⟩] }

/-! Generic list lemmas used by several proofs. -/

/-- find? returns the designated element when it satisfies the predicate
and is the only member doing so. -/
theorem find_eq_some_of_unique {α : Type} {l : List α} {p : α → Bool} {a : α}
    (ha : a ∈ l) (hpa : p a = true) (hu : ∀ b ∈ l, p b = true → b = a) :
    l.find? p = some a := by
  induction l with
  | nil => cases ha
  | cons x xs ih =>
    by_cases hx : p x = true
    · rw [List.find?_cons_of_pos _ hx, hu x (List.mem_cons_self x xs) hx]
    · have hax : a ∈ xs := by
        rcases List.mem_cons.mp ha with h | h
        · exact absurd (h ▸ hpa) hx
        · exact h
      rw [List.find?_cons_of_neg _ hx]
      exact ih hax (fun b hb hpb => hu b (List.mem_cons_of_mem _ hb) hpb)

/-- Counting after a map is bounded by counting a pointwise weaker
predicate before the map. -/
theorem countP_map_le {α : Type} (l : List α) (f : α → α) (p q : α → Bool)
    (h : ∀ x ∈ l, p (f x) = true → q x = true) :
    (l.map f).countP p ≤ l.countP q := by
  rw [List.countP_map]
  exact List.countP_mono_left h

/-- In a list whose mapped ids are without duplicate, two members with the
same id are the same row. -/
theorem eq_of_nodup_ids {l : List Partnership}
    (hnd : (l.map (fun p => p.id)).Nodup) {a b : Partnership}
    (ha : a ∈ l) (hb : b ∈ l) (hid : a.id = b.id) : a = b := by
  induction l with
  | nil => cases ha
  | cons x xs ih =>
    simp only [List.map_cons, List.nodup_cons] at hnd
    rcases List.mem_cons.mp ha with rfl | ha' <;>
      rcases List.mem_cons.mp hb with rfl | hb'
    · rfl
    · exact absurd (hid ▸ List.mem_map_of_mem (fun p => p.id) hb') hnd.1
    · exact absurd (hid ▸ List.mem_map_of_mem (fun p => p.id) ha') hnd.1
    · exact ih hnd.2 ha' hb'

/-- C1: for every submission S and every authenticated founder F who is
not the owner of S, a direct fetch of S answers 403 when S exists (the
existence check precedes the ownership check) and 404 when no submission
with the requested id exists; the submissions list returned to F contains
only F-owned rows and never S; and both the status and the rating write
are rejected 403 by the board-role middleware. -/
theorem c1_nonowner_founder_isolation (db : DB) (F : User) (S : Submission)
    (q : SubmissionQuery) (sid : Nat) (st : String) (r : Option ℚ)
    (hrole : F.role = "founder") (hne : S.user_id ≠ F.id) :
    (S ∈ db.submissions →
      (∀ s ∈ db.submissions, s.id = S.id → s = S) →
      (∃ u ∈ db.users, u.id = S.user_id) →
      getSubmission db F S.id = .error 403 "Access denied") ∧
    ((∀ s ∈ db.submissions, s.id ≠ sid) →
      getSubmission db F sid = .error 404 "Submission not found") ∧
    (∀ es, listSubmissions db F q = .json 200 es →
      ∀ e ∈ es, e.submission.user_id = F.id ∧ e.submission ≠ S) ∧
    patchSubmissionStatus db F sid st =
      (.error 403 "Access restricted to board members", db) ∧
    patchSubmissionRating db F sid r =
      (.error 403 "Access restricted to board members", db) := by
  have hreq : requireRole "board" F.role = false := by
    rw [hrole]; rfl
  refine ⟨?_, ?_, ?_, ?_, ?_⟩
  · rintro hmem huniq ⟨u, hu, huid⟩
    have hS : (db.submissions.filter (fun s =>
        db.users.any (fun u => u.id == s.user_id))).find?
        (fun s => s.id == S.id) = some S := by
      apply find_eq_some_of_unique
      · refine List.mem_filter.mpr ⟨hmem, ?_⟩
        rw [List.any_eq_true]
        exact ⟨u, hu, by simp [huid]⟩
      · simp
      · intro b hb hpb
        exact huniq b (List.mem_filter.mp hb).1 (by simpa using hpb)
    simp [getSubmission, hS, hrole, hne, Ne.symm hne]
  · intro habs
    have hnone : (db.submissions.filter (fun s =>
        db.users.any (fun u => u.id == s.user_id))).find?
        (fun s => s.id == sid) = none := by
      rw [List.find?_eq_none]
      intro x hx
      simpa using habs x (List.mem_filter.mp hx).1
    simp [getSubmission, hnone]
  · intro es hes e he
    have hes' : es = (listedSubmissions db F q).map (enrichEntry db F) := by
      have := hes
      simp only [listSubmissions, Resp.json.injEq] at this
      exact this.2.symm
    subst hes'
    rcases List.mem_map.mp he with ⟨sub, hsub, rfl⟩
    have hsub2 : matchesQuery F q sub = true := by
      have hmem := (List.mem_mergeSort).mp hsub
      exact (List.mem_filter.mp hmem).2
    have huid : sub.user_id = F.id := by
      unfold matchesQuery at hsub2
      simp only [Bool.and_eq_true] at hsub2
      have h1 := hsub2.1.1.1
      rw [hrole] at h1
      simpa using h1
    refine ⟨huid, ?_⟩
    intro hcontra
    apply hne
    rw [← hcontra]
    exact huid
  · simp [patchSubmissionStatus, hreq]
  · simp [patchSubmissionRating, hreq]

/-- Witness for C1 at the sample state: the non-owning founder gets 403 on
the existing sample submission, 404 on an absent id, an empty list, and
403 on both write endpoints. -/
theorem c1_witness :
    getSubmission sampleDB uFounder2 10 = .error 403 "Access denied" ∧
    getSubmission sampleDB uFounder2 99 = .error 404 "Submission not found" ∧
    listSubmissions sampleDB uFounder2 ⟨none, none, none⟩ = .json 200 [] ∧
    patchSubmissionStatus sampleDB uFounder2 99 "approved" =
      (.error 403 "Access restricted to board members", sampleDB) ∧
    patchSubmissionRating sampleDB uFounder2 99 (some 4) =
      (.error 403 "Access restricted to board members", sampleDB) := by
  obtain ⟨h1, h2, h3, h4, h5⟩ :=
    c1_nonowner_founder_isolation sampleDB uFounder2 subNeural
      ⟨none, none, none⟩ 99 "approved" (some 4) (by decide) (by decide)
  have hlist : listSubmissions sampleDB uFounder2 ⟨none, none, none⟩ =
      .json 200 [] := by
    simp [listSubmissions, listedSubmissions, sampleDB, matchesQuery,
      uFounder, uFounder2, uBoard, uBoard2, uBoard3, uBoard4, subNeural]
  exact ⟨h1 (by decide) (by decide) ⟨uFounder, by decide, by decide⟩,
    h2 (by decide), hlist, h4, h5⟩

/-! State characterizations of the three partnership operations. -/

/-- A claim either leaves the state unchanged or, when every check passed,
appends one fresh pending row. -/
theorem claimPartner_state (db : DB) (a : User) (subId : Nat) :
    (claimPartner db a subId).2 = db ∨
      ((db.partnerships.find? (fun p =>
          p.submission_id == subId && p.user_id == a.id)) = none ∧
       ¬ 3 ≤ activeCount db subId ∧
       (claimPartner db a subId).2 =
         { db with
           partnerships := db.partnerships ++ [⟨db.nextPartnershipId, subId, a.id, "pending", db.now, none⟩],
           nextPartnershipId := db.nextPartnershipId + 1 }) := by
  unfold claimPartner
  by_cases h1 : requireRole "board" a.role = false
  · simp [h1]
  · rw [if_neg h1]
    cases hf : db.submissions.find? (fun s => s.id == subId) with
    | none => simp
    | some s =>
      simp only
      by_cases h2 : (db.partnerships.find? (fun p =>
          p.submission_id == subId && p.user_id == a.id)).isSome = true
      · simp [h2]
      · rw [if_neg h2]
        by_cases h3 : 3 ≤ activeCount db subId
        · simp [h3]
        · rw [if_neg h3]
          exact Or.inr ⟨Option.not_isSome_iff_eq_none.mp h2, h3, rfl⟩

/-- A withdrawal either leaves the state unchanged or deletes the pending
rows of the pair. -/
theorem withdrawPartner_state (db : DB) (a : User) (subId : Nat) :
    (withdrawPartner db a subId).2 = db ∨
      (withdrawPartner db a subId).2 =
        { db with partnerships := db.partnerships.filter (fun p =>
            !(p.submission_id == subId && p.user_id == a.id && p.status == "pending")) } := by
  unfold withdrawPartner
  by_cases h1 : requireRole "board" a.role = false
  · rw [if_pos h1]
    exact Or.inl rfl
  · rw [if_neg h1]
    by_cases h2 : ((db.partnerships.filter (fun p =>
        !(p.submission_id == subId && p.user_id == a.id && p.status == "pending"))).length
          == db.partnerships.length) = true
    · rw [if_pos h2]
      exact Or.inl rfl
    · rw [if_neg h2]
      exact Or.inr rfl

/-- A response either leaves the state unchanged or rewrites the status and
responded_at of the rows carrying the id of the found pending row. -/
theorem respondPartnership_state (db : DB) (a : User) (pid : Nat) (r : String) :
    (respondPartnership db a pid r).2 = db ∨
      ∃ p, db.partnerships.find? (fun q => q.id == pid) = some p ∧
        p.status = "pending" ∧
        (respondPartnership db a pid r).2 =
          { db with partnerships := db.partnerships.map (fun q =>
              if q.id == pid then { q with status := r, responded_at := some db.now } else q) } := by
  unfold respondPartnership
  by_cases h1 : requireRole "founder" a.role = false
  · rw [if_pos h1]
    exact Or.inl rfl
  · rw [if_neg h1]
    by_cases h2 : (["accepted", "declined"].contains r) = false
    · rw [if_pos h2]
      exact Or.inl rfl
    · rw [if_neg h2]
      cases hf : db.partnerships.find? (fun q => q.id == pid) with
      | none => exact Or.inl rfl
      | some p =>
        dsimp only
        cases hs : db.submissions.find? (fun s => s.id == p.submission_id) with
        | none => exact Or.inl rfl
        | some s =>
          by_cases h3 : s.user_id = a.id
          · by_cases h4 : p.status = "pending"
            · refine Or.inr ⟨p, rfl, h4, ?_⟩
              simp [h3, h4]
            · exact Or.inl (by simp [h3, bne_iff_ne, h4])
          · exact Or.inl (by simp [bne_iff_ne, h3])

/-- Mapping a row-id-preserving function over the table commutes with the
find?-by-id lookup. -/
theorem find_map_id_pres {l : List Partnership} {pid : Nat}
    {g : Partnership → Partnership} (hg : ∀ q, (g q).id = q.id)
    {p : Partnership} (h : l.find? (fun q => q.id == pid) = some p) :
    (l.map g).find? (fun q => q.id == pid) = some (g p) := by
  induction l with
  | nil => simp at h
  | cons x xs ih =>
    rw [List.find?_cons] at h
    rw [List.map_cons, List.find?_cons]
    have hgx : ((g x).id == pid) = (x.id == pid) := by rw [hg x]
    rw [hgx]
    cases hx : (x.id == pid) with
    | true =>
      rw [hx] at h
      dsimp only at h ⊢
      cases h
      rfl
    | false =>
      rw [hx] at h
      dsimp only at h ⊢
      exact ih h

/-- Two distinct members both satisfying the predicate force a count of at
least two. -/
theorem two_le_countP {α : Type} {l : List α} {p : α → Bool} {a b : α}
    (ha : a ∈ l) (hb : b ∈ l) (hne : a ≠ b)
    (hpa : p a = true) (hpb : p b = true) : 2 ≤ l.countP p := by
  have ha' : a ∈ l.filter p := List.mem_filter.mpr ⟨ha, hpa⟩
  have hb' : b ∈ l.filter p := List.mem_filter.mpr ⟨hb, hpb⟩
  rw [List.countP_eq_length_filter]
  rcases hf : l.filter p with _ | ⟨x, _ | ⟨y, t⟩⟩
  · rw [hf] at ha'; cases ha'
  · rw [hf] at ha' hb'
    simp at ha' hb'
    exact absurd (ha'.trans hb'.symm) hne
  · simp

/-- The primary-key discipline of the partnerships table is preserved by
every workflow step. -/
theorem wf_step {db db' : DB} (hwf : DBWf db) (h : PartnerStep db db') :
    DBWf db' := by
  obtain ⟨hnd, hlt⟩ := hwf
  rcases h with ⟨a, s, rfl⟩ | ⟨a, s, rfl⟩ | ⟨a, pid, r, rfl⟩
  · rcases claimPartner_state db a s with h | ⟨-, -, h⟩
    · rw [h]; exact ⟨hnd, hlt⟩
    · rw [h]
      constructor
      · simp only [List.map_append, List.map_cons, List.map_nil]
        rw [List.nodup_append]
        refine ⟨hnd, List.nodup_singleton _, ?_⟩
        intro x hx hx'
        simp at hx'
        rcases List.mem_map.mp hx with ⟨q, hq, rfl⟩
        exact absurd (hx' ▸ hlt q hq) (lt_irrefl _)
      · intro q hq
        rcases List.mem_append.mp hq with hq' | hq'
        · exact Nat.lt_succ_of_lt (hlt q hq')
        · simp at hq'
          subst hq'
          exact Nat.lt_succ_self _
  · rcases withdrawPartner_state db a s with h | h
    · rw [h]; exact ⟨hnd, hlt⟩
    · rw [h]
      refine ⟨?_, ?_⟩
      · exact List.Nodup.sublist (List.Sublist.map _ (List.filter_sublist _)) hnd
      · intro q hq
        exact hlt q (List.mem_of_mem_filter hq)
  · rcases respondPartnership_state db a pid r with h | ⟨p, hf, hp, h⟩
    · rw [h]; exact ⟨hnd, hlt⟩
    · rw [h]
      have hg : ∀ q : Partnership,
          (if q.id == pid then { q with status := r, responded_at := some db.now } else q).id = q.id := by
        intro q
        by_cases hq : (q.id == pid) = true <;> simp [hq]
      constructor
      · rw [List.map_map]
        have he : ((fun p : Partnership => p.id) ∘ (fun q =>
            if q.id == pid then { q with status := r, responded_at := some db.now } else q)) =
            (fun p : Partnership => p.id) := funext (fun q => hg q)
        rw [he]
        exact hnd
      · intro q hq
        rcases List.mem_map.mp hq with ⟨x, hx, rfl⟩
        rw [hg x]
        exact hlt x hx

/-- A map whose function fixes every member is the identity. -/
theorem map_id_of_fixed {α : Type} {l : List α} {f : α → α}
    (h : ∀ a ∈ l, f a = a) : l.map f = l := by
  induction l with
  | nil => rfl
  | cons x xs ih =>
    rw [List.map_cons, h x (List.mem_cons_self x xs),
      ih (fun a ha => h a (List.mem_cons_of_mem _ ha))]

/-- The duplicate check of the claim handler: any existing row for the
pair, regardless of status, yields 409 and an unchanged state. -/
theorem claim_dup_conflict (db : DB) (a : User) (subId : Nat)
    (hrr : requireRole "board" a.role = true)
    (hsub : ∃ s ∈ db.submissions, s.id = subId)
    (hdup : ∃ p ∈ db.partnerships, p.submission_id = subId ∧ p.user_id = a.id) :
    claimPartner db a subId =
      (.error 409 "You have already requested to partner", db) := by
  unfold claimPartner
  have hnotf : ¬ (requireRole "board" a.role = false) := by simp [hrr]
  rw [if_neg hnotf]
  obtain ⟨s0, hs0, hsid⟩ := hsub
  have hsome : (db.submissions.find? (fun s => s.id == subId)).isSome = true :=
    (List.find?_isSome).mpr ⟨s0, hs0, by simp [hsid]⟩
  obtain ⟨sfound, hsf⟩ := Option.isSome_iff_exists.mp hsome
  rw [hsf]
  dsimp only
  obtain ⟨p0, hp0, hps, hpu⟩ := hdup
  have hdupS : (db.partnerships.find? (fun p =>
      p.submission_id == subId && p.user_id == a.id)).isSome = true :=
    (List.find?_isSome).mpr ⟨p0, hp0, by simp [hps, hpu]⟩
  rw [if_pos hdupS]

/-- The success path of the claim handler: a board actor, an existing
submission, no row for the pair and a free slot produce the inserted
pending row. -/
theorem claim_success (db : DB) (a : User) (subId : Nat)
    (hrr : requireRole "board" a.role = true)
    (hsub : ∃ s ∈ db.submissions, s.id = subId)
    (hpair : pairCount db subId a.id = 0)
    (hcap : activeCount db subId < 3) :
    claimPartner db a subId =
      (.json 201 ⟨db.nextPartnershipId, subId, a.id, "pending", db.now, none⟩,
       { db with
         partnerships := db.partnerships ++ [⟨db.nextPartnershipId, subId, a.id, "pending", db.now, none⟩],
         nextPartnershipId := db.nextPartnershipId + 1 }) := by
  unfold claimPartner
  have hnotf : ¬ (requireRole "board" a.role = false) := by simp [hrr]
  rw [if_neg hnotf]
  obtain ⟨s0, hs0, hsid⟩ := hsub
  have hsome : (db.submissions.find? (fun s => s.id == subId)).isSome = true :=
    (List.find?_isSome).mpr ⟨s0, hs0, by simp [hsid]⟩
  obtain ⟨sfound, hsf⟩ := Option.isSome_iff_exists.mp hsome
  rw [hsf]
  dsimp only
  have hdupn : db.partnerships.find? (fun p =>
      p.submission_id == subId && p.user_id == a.id) = none := by
    rw [List.find?_eq_none]
    intro x hx
    have := (List.countP_eq_zero.mp hpair) x hx
    simpa using this
  rw [hdupn]
  rw [if_neg (by simp)]
  rw [if_neg (by omega)]

/-- A declined partnership row survives every workflow step. -/
theorem declined_mem_step {db db' : DB} {p : Partnership} (hwf : DBWf db)
    (hp : p ∈ db.partnerships) (hd : p.status = "declined")
    (h : PartnerStep db db') : p ∈ db'.partnerships := by
  rcases h with ⟨a, s, rfl⟩ | ⟨a, s, rfl⟩ | ⟨a, pid, r, rfl⟩
  · rcases claimPartner_state db a s with h | ⟨-, -, h⟩
    · rw [h]; exact hp
    · rw [h]
      exact List.mem_append.mpr (Or.inl hp)
  · rcases withdrawPartner_state db a s with h | h
    · rw [h]; exact hp
    · rw [h]
      refine List.mem_filter.mpr ⟨hp, ?_⟩
      simp [hd]
  · rcases respondPartnership_state db a pid r with h | ⟨q, hf, hpend, h⟩
    · rw [h]; exact hp
    · rw [h]
      have hne : ¬ ((p.id == pid) = true) := by
        intro hid
        have hqid := List.find?_some hf
        rw [beq_iff_eq] at hid hqid
        have hpq : p = q := eq_of_nodup_ids hwf.1 hp
          (List.mem_of_find?_eq_some hf) (by rw [hid, hqid])
        rw [hpq, hpend] at hd
        exact absurd hd (by decide)
      exact List.mem_map.mpr ⟨p, hp, by rw [if_neg hne]⟩

/-- The three-slot bound on active partnerships is preserved by every
workflow step. -/
theorem activeCount_le_three_step {db db' : DB} (hwf : DBWf db)
    (hcap : ∀ sid, activeCount db sid ≤ 3) (h : PartnerStep db db') :
    ∀ sid, activeCount db' sid ≤ 3 := by
  intro sid
  rcases h with ⟨a, s, rfl⟩ | ⟨a, s, rfl⟩ | ⟨a, pid, r, rfl⟩
  · rcases claimPartner_state db a s with h | ⟨hdup, hcnt, h⟩
    · rw [h]; exact hcap sid
    · rw [h]
      unfold activeCount at *
      simp only [List.countP_append, List.countP_cons, List.countP_nil]
      by_cases hss : s = sid
      · subst hss
        have h2 := hcnt
        split <;> omega
      · have hfa : ((s == sid) = false) := by simp [hss]
        simp only [hfa, Bool.false_and, Bool.false_eq_true, if_false]
        have := hcap sid
        omega
  · rcases withdrawPartner_state db a s with h | h
    · rw [h]; exact hcap sid
    · rw [h]
      unfold activeCount at *
      rw [List.countP_filter]
      refine le_trans (List.countP_mono_left ?_) (hcap sid)
      intro x hx hpx
      rw [Bool.and_eq_true] at hpx
      exact hpx.1
  · rcases respondPartnership_state db a pid r with h | ⟨q, hf, hpend, h⟩
    · rw [h]; exact hcap sid
    · rw [h]
      unfold activeCount at *
      refine le_trans (countP_map_le _ _ _ _ ?_) (hcap sid)
      intro x hx hpx
      by_cases hid : (x.id == pid) = true
      · have hqid := List.find?_some hf
        rw [beq_iff_eq] at hqid
        have hxq : x = q := eq_of_nodup_ids hwf.1 hx
          (List.mem_of_find?_eq_some hf) (by rw [beq_iff_eq] at hid; rw [hid, hqid])
        rw [if_pos hid] at hpx
        rw [Bool.and_eq_true] at hpx
        have hsubm : (x.submission_id == sid) = true := hpx.1
        rw [Bool.and_eq_true]
        refine ⟨hsubm, ?_⟩
        rw [hxq, hpend]
        simp
      · rw [if_neg hid] at hpx
        exact hpx

/-- The one-row-per-pair bound is preserved by every workflow step. -/
theorem pairCount_le_one_step {db db' : DB}
    (hpair : ∀ sid uid, pairCount db sid uid ≤ 1) (h : PartnerStep db db') :
    ∀ sid uid, pairCount db' sid uid ≤ 1 := by
  intro sid uid
  rcases h with ⟨a, s, rfl⟩ | ⟨a, s, rfl⟩ | ⟨a, pid, r, rfl⟩
  · rcases claimPartner_state db a s with h | ⟨hdup, hcnt, h⟩
    · rw [h]; exact hpair sid uid
    · rw [h]
      unfold pairCount at *
      simp only [List.countP_append, List.countP_cons, List.countP_nil]
      by_cases hmatch : ((s == sid) && (a.id == uid)) = true
      · rw [Bool.and_eq_true, beq_iff_eq, beq_iff_eq] at hmatch
        obtain ⟨h1, h2⟩ := hmatch
        subst h1
        subst h2
        have hzero : db.partnerships.countP (fun p =>
            p.submission_id == s && p.user_id == a.id) = 0 := by
          rw [List.countP_eq_zero]
          intro x hx
          exact List.find?_eq_none.mp hdup x hx
        rw [hzero]
        split <;> omega
      · have hm : ((s == sid) && (a.id == uid)) = false :=
          eq_false_of_ne_true hmatch
        simp only [hm, Bool.false_eq_true, if_false]
        have := hpair sid uid
        unfold pairCount at this
        omega
  · rcases withdrawPartner_state db a s with h | h
    · rw [h]; exact hpair sid uid
    · rw [h]
      unfold pairCount at *
      rw [List.countP_filter]
      refine le_trans (List.countP_mono_left ?_) (hpair sid uid)
      intro x hx hpx
      rw [Bool.and_eq_true] at hpx
      exact hpx.1
  · rcases respondPartnership_state db a pid r with h | ⟨q, hf, hpend, h⟩
    · rw [h]; exact hpair sid uid
    · rw [h]
      unfold pairCount at *
      refine le_trans (countP_map_le _ _ _ _ ?_) (hpair sid uid)
      intro x hx hpx
      by_cases hid : (x.id == pid) = true
      · rw [if_pos hid] at hpx
        exact hpx
      · rw [if_neg hid] at hpx
        exact hpx

/-- C2: whenever a submission already carries three or more active
(pending or accepted) partnership rows, a claim attempt can only fail,
leaving the state unchanged; when moreover the claimant is board, the
submission exists and no row for the pair exists, that failure is the
capacity answer reported with status 400; and along every sequential
claim/respond/withdraw step the per-submission active count never exceeds
three. -/
theorem c2_partner_cap (db : DB) (a : User) (subId : Nat) :
    (3 ≤ activeCount db subId →
      (claimPartner db a subId).2 = db ∧
        ∃ code msg, (claimPartner db a subId).1 = .error code msg) ∧
    (3 ≤ activeCount db subId →
      requireRole "board" a.role = true →
      (∃ s ∈ db.submissions, s.id = subId) →
      (∀ p ∈ db.partnerships, ¬ (p.submission_id = subId ∧ p.user_id = a.id)) →
      claimPartner db a subId =
        (.error 400 "Maximum 3 partners reached for this submission", db)) ∧
    (∀ db', DBWf db → (∀ sid, activeCount db sid ≤ 3) → PartnerStep db db' →
      ∀ sid, activeCount db' sid ≤ 3) := by
  refine ⟨?_, ?_, ?_⟩
  · intro hge
    unfold claimPartner
    by_cases h1 : requireRole "board" a.role = false
    · rw [if_pos h1]
      exact ⟨rfl, 403, "Access restricted to board members", rfl⟩
    · rw [if_neg h1]
      cases hf : db.submissions.find? (fun s => s.id == subId) with
      | none => exact ⟨rfl, 404, "Submission not found", rfl⟩
      | some s =>
        dsimp only
        by_cases h2 : ((db.partnerships.find? (fun p =>
            p.submission_id == subId && p.user_id == a.id)).isSome) = true
        · rw [if_pos h2]
          exact ⟨rfl, 409, "You have already requested to partner", rfl⟩
        · rw [if_neg h2, if_pos hge]
          exact ⟨rfl, 400, "Maximum 3 partners reached for this submission", rfl⟩
  · intro hge hrr hsub hnopair
    have hnotf : ¬ (requireRole "board" a.role = false) := by simp [hrr]
    unfold claimPartner
    rw [if_neg hnotf]
    obtain ⟨s0, hs0, hsid⟩ := hsub
    have hsome : (db.submissions.find? (fun s => s.id == subId)).isSome = true :=
      (List.find?_isSome).mpr ⟨s0, hs0, by simp [hsid]⟩
    obtain ⟨sfound, hsf⟩ := Option.isSome_iff_exists.mp hsome
    rw [hsf]
    dsimp only
    have hdupn : db.partnerships.find? (fun p =>
        p.submission_id == subId && p.user_id == a.id) = none := by
      rw [List.find?_eq_none]
      intro x hx
      simp only [Bool.and_eq_true, beq_iff_eq, not_and]
      intro hxs hxu
      exact hnopair x hx ⟨hxs, hxu⟩
    rw [hdupn]
    have hnone : ¬ (((none : Option Partnership)).isSome = true) := by simp
    rw [if_neg hnone, if_pos hge]
  · intro db' hwf hcap hstep sid
    exact activeCount_le_three_step hwf hcap hstep sid

/-- Witness for C2 at a state whose submission holds three active rows: a
fourth board member's claim is refused with the 400 capacity error, and
the active count after the attempted step still respects the cap. -/
theorem c2_witness :
    claimPartner capDB uBoard4 10 =
      (.error 400 "Maximum 3 partners reached for this submission", capDB) ∧
    activeCount (claimPartner capDB uBoard4 10).2 10 ≤ 3 := by
  obtain ⟨h1, h2, h3⟩ := c2_partner_cap capDB uBoard4 10
  have hcap : ∀ sid, activeCount capDB sid ≤ 3 := by
    intro sid
    unfold activeCount
    exact le_trans (List.countP_le_length _) (by decide)
  refine ⟨?_, ?_⟩
  · exact h2 (by decide) (by decide) ⟨subNeural, by decide, by decide⟩ (by decide)
  · exact h3 (claimPartner capDB uBoard4 10).2 ⟨by decide, by decide⟩ hcap
      (Or.inl ⟨uBoard4, 10, rfl⟩) 10

/-- C3: a claim by a member already holding any row for the pair fails
409; the at-most-one-row-per-pair bound is preserved by every workflow
step; a successful withdrawal leaves no row for the pair, after which a
claim succeeds while a slot is free; and a declined row survives every
sequence of steps, so a later claim by that member on that submission
still fails 409. -/
theorem c3_pair_uniqueness (db : DB) (a : User) (subId : Nat) :
    (requireRole "board" a.role = true →
      (∃ s ∈ db.submissions, s.id = subId) →
      (∃ p ∈ db.partnerships, p.submission_id = subId ∧ p.user_id = a.id) →
      claimPartner db a subId =
        (.error 409 "You have already requested to partner", db)) ∧
    (∀ db', (∀ sid uid, pairCount db sid uid ≤ 1) → PartnerStep db db' →
      ∀ sid uid, pairCount db' sid uid ≤ 1) ∧
    (∀ db', withdrawPartner db a subId = (.json 200 true, db') →
      (∀ sid uid, pairCount db sid uid ≤ 1) →
      pairCount db' subId a.id = 0) ∧
    (requireRole "board" a.role = true →
      (∃ s ∈ db.submissions, s.id = subId) →
      pairCount db subId a.id = 0 →
      activeCount db subId < 3 →
      claimPartner db a subId =
        (.json 201 ⟨db.nextPartnershipId, subId, a.id, "pending", db.now, none⟩,
         { db with
           partnerships := db.partnerships ++ [⟨db.nextPartnershipId, subId, a.id, "pending", db.now, none⟩],
           nextPartnershipId := db.nextPartnershipId + 1 })) ∧
    (∀ p db', DBWf db → p ∈ db.partnerships → p.status = "declined" →
      Relation.ReflTransGen PartnerStep db db' →
      p ∈ db'.partnerships ∧
        ((∃ s ∈ db'.submissions, s.id = p.submission_id) →
          ∀ b : User, b.id = p.user_id → requireRole "board" b.role = true →
          claimPartner db' b p.submission_id =
            (.error 409 "You have already requested to partner", db'))) := by
  refine ⟨claim_dup_conflict db a subId, ?_, ?_, claim_success db a subId, ?_⟩
  · intro db' hpair hstep sid uid
    exact pairCount_le_one_step hpair hstep sid uid
  · intro db' hw hpair
    unfold withdrawPartner at hw
    by_cases h1 : requireRole "board" a.role = false
    · rw [if_pos h1] at hw
      simp at hw
    · rw [if_neg h1] at hw
      by_cases h2 : ((db.partnerships.filter (fun p =>
          !(p.submission_id == subId && p.user_id == a.id && p.status == "pending"))).length
            == db.partnerships.length) = true
      · rw [if_pos h2] at hw
        simp at hw
      · rw [if_neg h2] at hw
        have hdb' : db' = { db with partnerships := db.partnerships.filter (fun p =>
            !(p.submission_id == subId && p.user_id == a.id && p.status == "pending")) } :=
          (congrArg Prod.snd hw).symm
        subst hdb'
        have hex : ∃ x ∈ db.partnerships,
            (!(x.submission_id == subId && x.user_id == a.id && x.status == "pending")) = false := by
          by_contra hall
          push_neg at hall
          have hfix : db.partnerships.filter (fun p =>
              !(p.submission_id == subId && p.user_id == a.id && p.status == "pending")) =
              db.partnerships := by
            apply List.filter_eq_self.mpr
            intro x hx
            cases hb : (!(x.submission_id == subId && x.user_id == a.id && x.status == "pending")) with
            | true => rfl
            | false => exact absurd hb (hall x hx)
          rw [hfix] at h2
          exact h2 (by simp)
        obtain ⟨x0, hx0, hx0f⟩ := hex
        have hx0' : (x0.submission_id == subId && x0.user_id == a.id && x0.status == "pending") = true := by
          revert hx0f
          cases (x0.submission_id == subId && x0.user_id == a.id && x0.status == "pending") <;> simp
        unfold pairCount
        simp only
        rw [List.countP_filter, List.countP_eq_zero]
        intro y hy hcon
        rw [Bool.and_eq_true] at hcon
        obtain ⟨hpairy, hkeepy⟩ := hcon
        have hyx : y ≠ x0 := by
          intro he
          rw [he, hx0f] at hkeepy
          exact Bool.false_ne_true hkeepy
        have hpx0 : (x0.submission_id == subId && x0.user_id == a.id) = true := by
          simp only [Bool.and_eq_true] at hx0' ⊢
          exact hx0'.1
        have h2c : 2 ≤ db.partnerships.countP (fun q =>
            q.submission_id == subId && q.user_id == a.id) :=
          two_le_countP hy hx0 hyx hpairy hpx0
        have hone := hpair subId a.id
        unfold pairCount at hone
        omega
  · intro p db' hwf hp hd hstar
    have hpersist : DBWf db' ∧ p ∈ db'.partnerships := by
      induction hstar with
      | refl => exact ⟨hwf, hp⟩
      | tail hab hbc ih =>
        obtain ⟨hwfb, hpb⟩ := ih
        exact ⟨wf_step hwfb hbc, declined_mem_step hwfb hpb hd hbc⟩
    refine ⟨hpersist.2, ?_⟩
    intro hsub b hbid hbr
    exact claim_dup_conflict db' b p.submission_id hbr hsub
      ⟨p, hpersist.2, rfl, hbid.symm⟩

/-- Witness for C3: the declined sample row blocks a re-claim with 409; at
the one-row sample state a withdrawal succeeds, leaves no row for the
pair, and the subsequent re-claim succeeds with a fresh pending row. -/
theorem c3_witness :
    claimPartner sampleDB uBoard 10 =
      (.error 409 "You have already requested to partner", sampleDB) ∧
    pairCount pairDBafter 10 4 ≤ 1 ∧
    pairCount pairDBafter 10 4 = 0 ∧
    claimPartner pairDBafter uBoard2 10 =
      (.json 201 ⟨30, 10, 4, "pending", 100, none⟩,
       { pairDBafter with
         partnerships := [⟨30, 10, 4, "pending", 100, none⟩],
         nextPartnershipId := 31 }) := by
  have hpairs : ∀ sid uid, pairCount pairDB sid uid ≤ 1 := by
    intro sid uid
    unfold pairCount
    exact le_trans (List.countP_le_length _) (by decide)
  have hwd : withdrawPartner pairDB uBoard2 10 = (.json 200 true, pairDBafter) := by
    decide
  obtain ⟨d1, d2, d3, d4, d5⟩ := c3_pair_uniqueness pairDB uBoard2 10
  refine ⟨?_, ?_, ?_, ?_⟩
  · exact (c3_pair_uniqueness sampleDB uBoard 10).1 (by decide)
      ⟨subNeural, by decide, by decide⟩ ⟨partDeclined, by decide, by decide, by decide⟩
  · have h := d2 (withdrawPartner pairDB uBoard2 10).2 hpairs
      (Or.inr (Or.inl ⟨uBoard2, 10, rfl⟩)) 10 4
    rw [hwd] at h
    exact h
  · exact d3 pairDBafter hwd hpairs
  · exact (c3_pair_uniqueness pairDBafter uBoard2 10).2.2.2.1 (by decide)
      ⟨subNeural, by decide, by decide⟩ (by decide) (by decide)

/-- C4 counterexample: responding to the already-declined sample
partnership is rejected with status 400, not with the Conflict status 409
the claim prescribes. -/
theorem c4_counterexample :
    respondPartnership sampleDB uFounder 20 "accepted" =
      (.error 400 "Partnership already responded to", sampleDB) ∧
    ∀ m : String,
      (respondPartnership sampleDB uFounder 20 "accepted").1 ≠ .error 409 m := by
  have h : respondPartnership sampleDB uFounder 20 "accepted" =
      (.error 400 "Partnership already responded to", sampleDB) := by decide
  refine ⟨h, ?_⟩
  intro m hm
  rw [h] at hm
  simp at hm

/-- C4 (amended): respond fails 404 when no partnership row carries the
id, 403 when the acting founder does not own the joined submission, and
400 (message: Partnership already responded to) when the status is no
longer pending — each failure leaving the state unchanged; when all three
checks pass the decision and responded_at are stored, and any further
respond on the same partnership fails while leaving the stored row
untouched. -/
theorem c4_respond_rules (db : DB) (a : User) (pid : Nat) (resp : String)
    (hrole : requireRole "founder" a.role = true)
    (hresp : resp = "accepted" ∨ resp = "declined") :
    ((∀ q ∈ db.partnerships, q.id ≠ pid) →
      respondPartnership db a pid resp =
        (.error 404 "Partnership not found", db)) ∧
    (∀ p S, db.partnerships.find? (fun q => q.id == pid) = some p →
      db.submissions.find? (fun s => s.id == p.submission_id) = some S →
      ((S.user_id ≠ a.id →
        respondPartnership db a pid resp = (.error 403 "Access denied", db)) ∧
       (S.user_id = a.id → p.status ≠ "pending" →
        respondPartnership db a pid resp =
          (.error 400 "Partnership already responded to", db)) ∧
       (S.user_id = a.id → p.status = "pending" →
        respondPartnership db a pid resp =
          (.json 200 resp, respondedState db pid resp) ∧
        { p with status := resp, responded_at := some db.now } ∈
          (respondedState db pid resp).partnerships ∧
        (∀ b resp2, requireRole "founder" b.role = true →
          resp2 = "accepted" ∨ resp2 = "declined" →
          ∃ code msg, respondPartnership (respondedState db pid resp) b pid resp2 =
            (.error code msg, respondedState db pid resp))))) := by
  have hnotf : ¬ (requireRole "founder" a.role = false) := by simp [hrole]
  have hcont : ¬ ((["accepted", "declined"].contains resp) = false) := by
    rcases hresp with rfl | rfl <;> decide
  constructor
  · intro habs
    unfold respondPartnership
    rw [if_neg hnotf, if_neg hcont]
    have hnone : db.partnerships.find? (fun q => q.id == pid) = none := by
      rw [List.find?_eq_none]
      intro q hq
      simpa using habs q hq
    rw [hnone]
  · intro p S hf hs
    have hpider : (p.id == pid) = true := by
      have := List.find?_some hf
      simpa using this
    refine ⟨?_, ?_, ?_⟩
    · intro hne
      unfold respondPartnership
      rw [if_neg hnotf, if_neg hcont, hf]
      dsimp only
      rw [hs]
      dsimp only
      have hb : (S.user_id != a.id) = true := by simp [bne_iff_ne, hne]
      rw [if_pos hb]
    · intro hown hnp
      unfold respondPartnership
      rw [if_neg hnotf, if_neg hcont, hf]
      dsimp only
      rw [hs]
      dsimp only
      have hb : ¬ ((S.user_id != a.id) = true) := by simp [hown]
      rw [if_neg hb]
      have hb2 : (p.status != "pending") = true := by simp [bne_iff_ne, hnp]
      rw [if_pos hb2]
    · intro hown hpend
      have hsucc : respondPartnership db a pid resp =
          (.json 200 resp, respondedState db pid resp) := by
        unfold respondPartnership
        rw [if_neg hnotf, if_neg hcont, hf]
        dsimp only
        rw [hs]
        dsimp only
        have hb : ¬ ((S.user_id != a.id) = true) := by simp [hown]
        rw [if_neg hb]
        have hb2 : ¬ ((p.status != "pending") = true) := by simp [hpend]
        rw [if_neg hb2]
        rfl
      refine ⟨hsucc, ?_, ?_⟩
      · unfold respondedState
        exact List.mem_map.mpr ⟨p, List.mem_of_find?_eq_some hf, by rw [if_pos hpider]⟩
      · intro b resp2 hbrole hresp2
        have hnotfb : ¬ (requireRole "founder" b.role = false) := by simp [hbrole]
        have hcont2 : ¬ ((["accepted", "declined"].contains resp2) = false) := by
          rcases hresp2 with rfl | rfl <;> decide
        have hg : ∀ q : Partnership,
            (if q.id == pid then { q with status := resp, responded_at := some db.now } else q).id = q.id := by
          intro q
          by_cases hq : (q.id == pid) = true <;> simp [hq]
        have hf0 := find_map_id_pres hg hf
        rw [if_pos hpider] at hf0
        have hf' : (respondedState db pid resp).partnerships.find?
            (fun q => q.id == pid) =
            some { p with status := resp, responded_at := some db.now } := by
          unfold respondedState
          dsimp only
          exact hf0
        have hsubs : (respondedState db pid resp).submissions = db.submissions := rfl
        unfold respondPartnership
        rw [if_neg hnotfb, if_neg hcont2, hf']
        dsimp only
        rw [hsubs, hs]
        dsimp only
        by_cases hb : (S.user_id != b.id) = true
        · rw [if_pos hb]
          exact ⟨403, "Access denied", rfl⟩
        · rw [if_neg hb]
          have hb2 : (({ p with status := resp, responded_at := some db.now } :
              Partnership).status != "pending") = true := by
            rcases hresp with rfl | rfl <;> rfl
          rw [if_pos hb2]
          exact ⟨400, "Partnership already responded to", rfl⟩

/-- Witness for C4 at the sample state: 404 on an absent id, 403 for the
non-owning founder, 400 on the declined row, a successful accept on the
pending row, and a failing second respond on the now-accepted row. -/
theorem c4_witness :
    respondPartnership sampleDB uFounder 99 "accepted" =
      (.error 404 "Partnership not found", sampleDB) ∧
    respondPartnership sampleDB uFounder2 21 "accepted" =
      (.error 403 "Access denied", sampleDB) ∧
    respondPartnership sampleDB uFounder 20 "declined" =
      (.error 400 "Partnership already responded to", sampleDB) ∧
    respondPartnership sampleDB uFounder 21 "accepted" =
      (.json 200 "accepted", respondedState sampleDB 21 "accepted") ∧
    respondPartnership (respondedState sampleDB 21 "accepted") uFounder 21 "declined" =
      (.error 400 "Partnership already responded to",
       respondedState sampleDB 21 "accepted") := by
  refine ⟨?_, ?_, ?_, ?_, ?_⟩
  · exact (c4_respond_rules sampleDB uFounder 99 "accepted" (by decide)
      (Or.inl rfl)).1 (by decide)
  · exact (((c4_respond_rules sampleDB uFounder2 21 "accepted" (by decide)
      (Or.inl rfl)).2 partPending subNeural (by decide) (by decide)).1) (by decide)
  · exact (((c4_respond_rules sampleDB uFounder 20 "declined" (by decide)
      (Or.inr rfl)).2 partDeclined subNeural (by decide) (by decide)).2.1)
      (by decide) (by decide)
  · exact ((((c4_respond_rules sampleDB uFounder 21 "accepted" (by decide)
      (Or.inl rfl)).2 partPending subNeural (by decide) (by decide)).2.2)
      (by decide) (by decide)).1
  · exact (((c4_respond_rules (respondedState sampleDB 21 "accepted") uFounder 21
      "declined" (by decide) (Or.inr rfl)).2
      ⟨21, 10, 4, "accepted", 3, some 100⟩ subNeural (by decide) (by decide)).2.1)
      (by decide) (by decide)

/-- C5: when the owning founder fetches their submission, the notes in the
payload are the founder-filtered note list, which holds exactly the
founder_visible notes of the submission in created_at ascending order; a
board reader of the same submission receives every note of the
submission. -/
theorem c5_note_visibility (db : DB) (F B : User) (S : Submission)
    (hF : F.role = "founder") (hown : S.user_id = F.id) (hB : B.role = "board")
    (hmem : S ∈ db.submissions)
    (huniq : ∀ s ∈ db.submissions, s.id = S.id → s = S)
    (hfk : ∃ u ∈ db.users, u.id = S.user_id) :
    getSubmission db F S.id = .json 200 ⟨S, visibleNotes db "founder" S.id⟩ ∧
    getSubmission db B S.id = .json 200 ⟨S, visibleNotes db "board" S.id⟩ ∧
    (∀ n, n ∈ visibleNotes db "founder" S.id ↔
      (n ∈ db.board_notes ∧ n.submission_id = S.id ∧ n.founder_visible = true)) ∧
    (∀ n, n ∈ visibleNotes db "board" S.id ↔
      (n ∈ db.board_notes ∧ n.submission_id = S.id)) ∧
    (visibleNotes db "founder" S.id).Pairwise
      (fun x y => x.created_at ≤ y.created_at) ∧
    (visibleNotes db "board" S.id).Pairwise
      (fun x y => x.created_at ≤ y.created_at) := by
  obtain ⟨u, hu, huid⟩ := hfk
  have hlookup : (db.submissions.filter (fun s =>
      db.users.any (fun u => u.id == s.user_id))).find?
      (fun s => s.id == S.id) = some S := by
    apply find_eq_some_of_unique
    · refine List.mem_filter.mpr ⟨hmem, ?_⟩
      rw [List.any_eq_true]
      exact ⟨u, hu, by simp [huid]⟩
    · simp
    · intro b hb hpb
      exact huniq b (List.mem_filter.mp hb).1 (by simpa using hpb)
  have hsortF : (visibleNotes db "founder" S.id).Pairwise
      (fun x y => x.created_at ≤ y.created_at) := by
    have h : (visibleNotes db "founder" S.id).Pairwise
        (fun x y => (decide (x.created_at ≤ y.created_at)) = true) := by
      unfold visibleNotes
      exact List.sorted_mergeSort
        (fun x y z hxy hyz => by
          simp only [decide_eq_true_eq] at hxy hyz ⊢
          omega)
        (fun x y => by
          simp only [Bool.or_eq_true, decide_eq_true_eq]
          omega) _
    exact h.imp (fun hxy => by simpa using hxy)
  have hsortB : (visibleNotes db "board" S.id).Pairwise
      (fun x y => x.created_at ≤ y.created_at) := by
    have h : (visibleNotes db "board" S.id).Pairwise
        (fun x y => (decide (x.created_at ≤ y.created_at)) = true) := by
      unfold visibleNotes
      exact List.sorted_mergeSort
        (fun x y z hxy hyz => by
          simp only [decide_eq_true_eq] at hxy hyz ⊢
          omega)
        (fun x y => by
          simp only [Bool.or_eq_true, decide_eq_true_eq]
          omega) _
    exact h.imp (fun hxy => by simpa using hxy)
  refine ⟨?_, ?_, ?_, ?_, hsortF, hsortB⟩
  · unfold getSubmission
    rw [hlookup]
    dsimp only
    have hcond : ¬ ((F.role == "founder" && S.user_id != F.id) = true) := by
      simp [hF, hown]
    rw [if_neg hcond, hF]
  · unfold getSubmission
    rw [hlookup]
    dsimp only
    have hcond : ¬ ((B.role == "founder" && S.user_id != B.id) = true) := by
      simp [hB]
    rw [if_neg hcond, hB]
  · intro n
    unfold visibleNotes
    rw [List.mem_mergeSort, List.mem_filter]
    simp
  · intro n
    unfold visibleNotes
    rw [List.mem_mergeSort, List.mem_filter]
    simp

/-- Witness for C5 at the sample state: the owner sees exactly the
founder-visible note, the board reader both notes in created_at order. -/
theorem c5_witness :
    getSubmission sampleDB uFounder 10 =
      .json 200 ⟨subNeural, visibleNotes sampleDB "founder" 10⟩ ∧
    getSubmission sampleDB uBoard 10 =
      .json 200 ⟨subNeural, visibleNotes sampleDB "board" 10⟩ ∧
    visibleNotes sampleDB "founder" 10 = [noteVisible] ∧
    visibleNotes sampleDB "board" 10 = [noteHidden, noteVisible] := by
  obtain ⟨h1, h2, h3, h4, h5, h6⟩ :=
    c5_note_visibility sampleDB uFounder uBoard subNeural (by decide) (by decide)
      (by decide) (by decide) (by decide) ⟨uFounder, by decide, by decide⟩
  refine ⟨h1, h2, ?_, ?_⟩
  · simp [visibleNotes, sampleDB, noteVisible, noteHidden, List.mergeSort]
  · simp [visibleNotes, sampleDB, noteVisible, noteHidden, List.mergeSort]

/-- C6 counterexample: a board actor's rating write with the non-integer
body value 5/2 is accepted with a success answer, although 5/2 is none of
the integers 1 through 5 — the claim that exactly those integers are
accepted fails on the code. -/
theorem c6_counterexample :
    (patchSubmissionRating sampleDB uBoard 10 (some (5/2))).1 = .json 200 (5/2) ∧
    ¬ ∃ n : ℤ, 1 ≤ n ∧ n ≤ 5 ∧ ((n : ℚ) = 5/2) := by
  constructor
  · have hnotf : ¬ (requireRole "board" uBoard.role = false) := by decide
    have hcond : ¬ ((5/2 : ℚ) = 0 ∨ (5/2 : ℚ) < 1 ∨ (5/2 : ℚ) > 5) := by norm_num
    unfold patchSubmissionRating
    rw [if_neg hnotf]
    dsimp only
    rw [if_neg hcond]
  · rintro ⟨n, hn1, hn5, hn⟩
    have h2 : (2 * n : ℤ) = 5 := by
      have h : (2 : ℚ) * (n : ℚ) = 5 := by
        rw [hn]
        norm_num
      exact_mod_cast h
    omega

/-- C6 (amended): the rating write is permitted only to board/admin
actors (403 otherwise, state unchanged); a board actor's write is
accepted exactly for body values r with 1 ≤ r ≤ 5 — every integer 1..5
qualifies, but non-integer values in the range are accepted as well — a
missing or out-of-range value is rejected 400 with the state unchanged;
an accepted value overwrites the rating field of every row carrying the
target id and leaves all other rows unchanged, retaining no history. -/
theorem c6_rating_rules (db : DB) (a : User) (id : Nat) :
    (requireRole "board" a.role = false → ∀ rat,
      patchSubmissionRating db a id rat =
        (.error 403 "Access restricted to board members", db)) ∧
    (requireRole "board" a.role = true →
      patchSubmissionRating db a id none =
        (.error 400 "Rating must be between 1 and 5", db) ∧
      (∀ r : ℚ, r < 1 ∨ r > 5 →
        patchSubmissionRating db a id (some r) =
          (.error 400 "Rating must be between 1 and 5", db)) ∧
      (∀ r : ℚ, 1 ≤ r → r ≤ 5 →
        patchSubmissionRating db a id (some r) =
          (.json 200 r, { db with submissions := db.submissions.map (fun s =>
              if s.id == id then { s with rating := some r } else s) }) ∧
        (∀ s ∈ db.submissions, s.id = id →
          { s with rating := some r } ∈
            (patchSubmissionRating db a id (some r)).2.submissions) ∧
        (∀ s ∈ db.submissions, s.id ≠ id →
          s ∈ (patchSubmissionRating db a id (some r)).2.submissions))) := by
  constructor
  · intro hdeny rat
    unfold patchSubmissionRating
    rw [if_pos hdeny]
  · intro hrr
    have hnotf : ¬ (requireRole "board" a.role = false) := by simp [hrr]
    refine ⟨?_, ?_, ?_⟩
    · unfold patchSubmissionRating
      rw [if_neg hnotf]
    · intro r hout
      have hcond : (r = 0 ∨ r < 1 ∨ r > 5) := by
        rcases hout with h | h
        · exact Or.inr (Or.inl h)
        · exact Or.inr (Or.inr h)
      unfold patchSubmissionRating
      rw [if_neg hnotf]
      dsimp only
      rw [if_pos hcond]
    · intro r hlo hhi
      have hcond : ¬ (r = 0 ∨ r < 1 ∨ r > 5) := by
        push_neg
        refine ⟨?_, by linarith, by linarith⟩
        intro h0
        rw [h0] at hlo
        linarith
      have hsucc : patchSubmissionRating db a id (some r) =
          (.json 200 r, { db with submissions := db.submissions.map (fun s =>
              if s.id == id then { s with rating := some r } else s) }) := by
        unfold patchSubmissionRating
        rw [if_neg hnotf]
        dsimp only
        rw [if_neg hcond]
      refine ⟨hsucc, ?_, ?_⟩
      · intro s hs hsid
        rw [hsucc]
        dsimp only
        refine List.mem_map.mpr ⟨s, hs, ?_⟩
        rw [if_pos (by simp [hsid])]
      · intro s hs hsid
        rw [hsucc]
        dsimp only
        refine List.mem_map.mpr ⟨s, hs, ?_⟩
        rw [if_neg (by simp [hsid])]

/-- Witness for C6: 403 for a founder, 400 for a missing and an
out-of-range value, success with overwrite for the integer 3. -/
theorem c6_witness :
    patchSubmissionRating sampleDB uFounder 10 (some 3) =
      (.error 403 "Access restricted to board members", sampleDB) ∧
    patchSubmissionRating sampleDB uBoard 10 none =
      (.error 400 "Rating must be between 1 and 5", sampleDB) ∧
    patchSubmissionRating sampleDB uBoard 10 (some 6) =
      (.error 400 "Rating must be between 1 and 5", sampleDB) ∧
    patchSubmissionRating sampleDB uBoard 10 (some 3) =
      (.json 200 3, { sampleDB with submissions := sampleDB.submissions.map (fun s =>
          if s.id == 10 then { s with rating := some 3 } else s) }) := by
  obtain ⟨hA, hB⟩ := c6_rating_rules sampleDB uBoard 10
  refine ⟨?_, ?_, ?_, ?_⟩
  · exact (c6_rating_rules sampleDB uFounder 10).1 (by decide) (some 3)
  · exact (hB (by decide)).1
  · exact (hB (by decide)).2.1 6 (by norm_num)
  · exact ((hB (by decide)).2.2 3 (by norm_num) (by norm_num)).1

/-- Inversion of a successful registration: the status is 201 and the
appended user carries role founder and the lowercased email. -/
theorem register_success_fields (db : DB) (name email pw : Option String)
    (c : Nat) (u' : User) (db' : DB)
    (h : register db name email pw = (.json c u', db')) :
    c = 201 ∧ u'.role = "founder" ∧ u'.email = lowerString (email.getD "") ∧
      db'.users = db.users ++ [u'] := by
  unfold register at h
  by_cases h1 : (strFalsy name || strFalsy email || strFalsy pw) = true
  · rw [if_pos h1] at h
    exact absurd h (by simp)
  · rw [if_neg h1] at h
    by_cases h2 : (pw.getD "").length < 8
    · rw [if_pos h2] at h
      exact absurd h (by simp)
    · rw [if_neg h2] at h
      by_cases h3 : ((db.users.find? (fun w =>
          w.email == lowerString (email.getD ""))).isSome) = true
      · rw [if_pos h3] at h
        exact absurd h (by simp)
      · rw [if_neg h3] at h
        simp only [Prod.mk.injEq, Resp.json.injEq] at h
        obtain ⟨⟨hc, hu'⟩, hdb⟩ := h
        subst hc
        rw [← hu', ← hdb]
        exact ⟨rfl, rfl, rfl, rfl⟩

/-- Inversion of a successful board-member creation: the status is 201 and
the appended user carries role board. -/
theorem createBoardMember_success_fields (db : DB) (a : User)
    (name email pw sp : Option String) (c : Nat) (u' : User) (db' : DB)
    (h : createBoardMember db a name email pw sp = (.json c u', db')) :
    c = 201 ∧ u'.role = "board" ∧ u'.email = lowerString (email.getD "") ∧
      db'.users = db.users ++ [u'] := by
  unfold createBoardMember at h
  by_cases h0 : requireRole "admin" a.role = false
  · rw [if_pos h0] at h
    exact absurd h (by simp)
  · rw [if_neg h0] at h
    by_cases h1 : (strFalsy name || strFalsy email || strFalsy pw) = true
    · rw [if_pos h1] at h
      exact absurd h (by simp)
    · rw [if_neg h1] at h
      by_cases h3 : ((db.users.find? (fun w =>
          w.email == lowerString (email.getD ""))).isSome) = true
      · rw [if_pos h3] at h
        exact absurd h (by simp)
      · rw [if_neg h3] at h
        simp only [Prod.mk.injEq, Resp.json.injEq] at h
        obtain ⟨⟨hc, hu'⟩, hdb⟩ := h
        subst hc
        rw [← hu', ← hdb]
        exact ⟨rfl, rfl, rfl, rfl⟩

/-- C7: registration fails 400 when a field is falsy or the password is
shorter than 8 characters; when every stored email is lowercase (as both
creation paths guarantee), any case variant of a registered email is
refused 409; and every successful registration answers 201 and appends a
user with role founder and the lowercased email. -/
theorem c7_register_rules (db : DB) (name email pw : Option String) :
    ((strFalsy name || strFalsy email || strFalsy pw) = true →
      register db name email pw =
        (.error 400 "Name, email, and password are required", db)) ∧
    ((strFalsy name || strFalsy email || strFalsy pw) = false →
      (pw.getD "").length < 8 →
      register db name email pw =
        (.error 400 "Password must be at least 8 characters", db)) ∧
    (∀ u ∈ db.users, ∀ v : String,
      (∀ w ∈ db.users, lowerString w.email = w.email) →
      u.email ≠ "" →
      lowerString v = lowerString u.email →
      strFalsy name = false → strFalsy pw = false →
      8 ≤ (pw.getD "").length →
      register db name (some v) pw =
        (.error 409 "An account with this email already exists", db)) ∧
    (∀ c u' db', register db name email pw = (.json c u', db') →
      c = 201 ∧ u'.role = "founder" ∧ u'.email = lowerString (email.getD "") ∧
        db'.users = db.users ++ [u']) := by
  refine ⟨?_, ?_, ?_, ?_⟩
  · intro h
    unfold register
    rw [if_pos h]
  · intro h hlen
    unfold register
    have hnot : ¬ ((strFalsy name || strFalsy email || strFalsy pw) = true) := by
      simp [h]
    rw [if_neg hnot, if_pos hlen]
  · intro u hu v hlow hne hv hn hp hlen8
    have hvne : v ≠ "" := by
      intro hv0
      apply hne
      have : lowerString v = "" := by rw [hv0]; rfl
      rw [this] at hv
      rw [← hlow u hu, ← hv]
    have hfalse : ¬ ((strFalsy name || strFalsy (some v) || strFalsy pw) = true) := by
      rw [hn, hp]
      simp [strFalsy, hvne]
    unfold register
    rw [if_neg hfalse]
    have hnlen : ¬ ((pw.getD "").length < 8) := by omega
    rw [if_neg hnlen]
    have hem : lowerString v = u.email := hv.trans (hlow u hu)
    have hsome : ((db.users.find? (fun w =>
        w.email == lowerString ((some v : Option String).getD ""))).isSome) = true :=
      (List.find?_isSome).mpr ⟨u, hu, by simp [Option.getD, hem]⟩
    rw [if_pos hsome]
  · intro c u' db' h
    exact register_success_fields db name email pw c u' db' h

/-- Witness for C7 at the sample state: missing email 400, short password
400, conflict 409 on a case variant of the stored founder email, and a
successful registration yielding a founder row. -/
theorem c7_witness :
    register sampleDB (some "Bob") none (some "12345678") =
      (.error 400 "Name, email, and password are required", sampleDB) ∧
    register sampleDB (some "Bob") (some "bob@x.com") (some "1234567") =
      (.error 400 "Password must be at least 8 characters", sampleDB) ∧
    register sampleDB (some "Bob") (some "Alice@Demo.COM") (some "12345678") =
      (.error 409 "An account with this email already exists", sampleDB) ∧
    (⟨8, "bob@x.com", "12345678", "Bob", "founder", none⟩ : User).role =
      "founder" := by
  refine ⟨?_, ?_, ?_, ?_⟩
  · exact (c7_register_rules sampleDB (some "Bob") none (some "12345678")).1
      (by decide)
  · exact (c7_register_rules sampleDB (some "Bob") (some "bob@x.com")
      (some "1234567")).2.1 (by decide) (by decide)
  · exact (c7_register_rules sampleDB (some "Bob") (some "Alice@Demo.COM")
      (some "12345678")).2.2.1 uFounder (by decide) "Alice@Demo.COM"
      (by decide) (by decide) (by decide) (by decide) (by decide) (by decide)
  · have hreg : register sampleDB (some "Bob") (some "Bob@X.com")
        (some "12345678") =
        (.json 201 ⟨8, "bob@x.com", "12345678", "Bob", "founder", none⟩,
         { sampleDB with
           users := sampleDB.users ++ [⟨8, "bob@x.com", "12345678", "Bob", "founder", none⟩],
           nextUserId := 9 }) := by decide
    exact ((c7_register_rules sampleDB (some "Bob") (some "Bob@X.com")
      (some "12345678")).2.2.2 201
      ⟨8, "bob@x.com", "12345678", "Bob", "founder", none⟩ _ hreg).2.1

/-- C8: the board-gated analytics endpoint serves the aggregation record;
the average-rating display is the sentinel (encoded none) whenever no
submission carries a rating; the approval rate is 0 on a zero denominator
and otherwise the Math.round of approved over approved plus passed times
100 — in particular 67 for two approved and one passed. -/
theorem c8_analytics_aggregation (db : DB) (a : User) :
    (requireRole "board" a.role = true →
      analytics db a = .json 200 (analyticsData db)) ∧
    ((∀ s ∈ db.submissions, s.rating = none) →
      (analyticsData db).avgRatingDisplay = none) ∧
    (approvedCount db + passedCount db = 0 →
      (analyticsData db).approvalRate = 0) ∧
    (0 < approvedCount db + passedCount db →
      (analyticsData db).approvalRate =
        jsRound ((approvedCount db : ℚ) /
          ((approvedCount db : ℚ) + (passedCount db : ℚ)) * 100)) ∧
    (approvedCount db = 2 → passedCount db = 1 →
      (analyticsData db).approvalRate = 67) := by
  refine ⟨?_, ?_, ?_, ?_, ?_⟩
  · intro hrr
    have hnotf : ¬ (requireRole "board" a.role = false) := by simp [hrr]
    unfold analytics
    rw [if_neg hnotf]
  · intro hnone
    have hflt : db.submissions.filterMap (fun s => s.rating) = [] := by
      rw [List.filterMap_eq_nil_iff]
      exact hnone
    unfold analyticsData
    simp [hflt]
  · intro h0
    unfold analyticsData
    dsimp only
    rw [if_neg (by omega)]
  · intro hpos
    unfold analyticsData
    dsimp only
    rw [if_pos hpos]
  · intro h2 h1
    unfold analyticsData
    dsimp only
    rw [h2, h1]
    rw [if_pos (by norm_num)]
    unfold jsRound
    norm_num [Rat.floor]

/-- Witness for C8 at the two-approved-one-passed unrated state: the
endpoint serves the record, the rating display is the sentinel, and the
approval rate is 67. -/
theorem c8_witness :
    analytics analyticsDB uBoard = .json 200 (analyticsData analyticsDB) ∧
    (analyticsData analyticsDB).avgRatingDisplay = none ∧
    (analyticsData analyticsDB).approvalRate = 67 := by
  obtain ⟨h1, h2, h3, h4, h5⟩ := c8_analytics_aggregation analyticsDB uBoard
  exact ⟨h1 (by decide), h2 (by decide), h5 (by decide) (by decide)⟩

/-- C9: the users-table CHECK allows exactly the roles founder and board,
so the value admin is excluded; both creation paths emit only such roles;
and no role satisfying the CHECK ever satisfies the admin requirement of
requireRole, so the admin superset branch is unreachable for any user the
system can persist. -/
theorem c9_role_universe (db : DB) :
    usersRoleCheck "admin" = false ∧
    (∀ role, usersRoleCheck role = true → role = "founder" ∨ role = "board") ∧
    (∀ role, usersRoleCheck role = true → requireRole "admin" role = false) ∧
    (∀ name email pw c u' db',
      register db name email pw = (.json c u', db') →
      usersRoleCheck u'.role = true ∧ requireRole "admin" u'.role = false) ∧
    (∀ a name email pw sp c u' db',
      createBoardMember db a name email pw sp = (.json c u', db') →
      usersRoleCheck u'.role = true ∧ requireRole "admin" u'.role = false) := by
  refine ⟨rfl, ?_, ?_, ?_, ?_⟩
  · intro role h
    simpa [usersRoleCheck] using h
  · intro role h
    have h' : role = "founder" ∨ role = "board" := by
      simpa [usersRoleCheck] using h
    rcases h' with rfl | rfl <;> rfl
  · intro name email pw c u' db' h
    have hrole := (register_success_fields db name email pw c u' db' h).2.1
    rw [hrole]
    exact ⟨rfl, rfl⟩
  · intro a name email pw sp c u' db' h
    have hrole :=
      (createBoardMember_success_fields db a name email pw sp c u' db' h).2.1
    rw [hrole]
    exact ⟨rfl, rfl⟩

/-- Witness for C9: the CHECK refuses admin; a concrete registration and a
concrete board-member creation both land in the two-role universe and fail
the admin requirement. -/
theorem c9_witness :
    usersRoleCheck "admin" = false ∧
    usersRoleCheck "founder" = true ∧
    requireRole "admin" "founder" = false ∧
    usersRoleCheck "board" = true ∧
    requireRole "admin" "board" = false := by
  obtain ⟨h0, h1, h2, h3, h4⟩ := c9_role_universe sampleDB
  have hreg : register sampleDB (some "Eve") (some "eve@x.com")
      (some "12345678") =
      (.json 201 ⟨8, "eve@x.com", "12345678", "Eve", "founder", none⟩,
       { sampleDB with
         users := sampleDB.users ++ [⟨8, "eve@x.com", "12345678", "Eve", "founder", none⟩],
         nextUserId := 9 }) := by decide
  have hcbm : createBoardMember sampleDB uAdmin (some "Board Bob")
      (some "bb@x.com") (some "12345678") (some "Ops") =
      (.json 201 ⟨8, "bb@x.com", "12345678", "Board Bob", "board", some "Ops"⟩,
       { sampleDB with
         users := sampleDB.users ++ [⟨8, "bb@x.com", "12345678", "Board Bob", "board", some "Ops"⟩],
         nextUserId := 9 }) := by decide
  have hf := h3 (some "Eve") (some "eve@x.com") (some "12345678") 201
    ⟨8, "eve@x.com", "12345678", "Eve", "founder", none⟩ _ hreg
  have hb := h4 uAdmin (some "Board Bob") (some "bb@x.com") (some "12345678")
    (some "Ops") 201
    ⟨8, "bb@x.com", "12345678", "Board Bob", "board", some "Ops"⟩ _ hcbm
  exact ⟨h0, hf.1, hf.2, hb.1, hb.2⟩

/-- C10: with a board actor, a valid status value and an in-range rating,
the two update endpoints answer success even when no submission carries
the target id, and the stored submissions are left entirely unchanged —
no NotFound is raised. -/
theorem c10_missing_id_update (db : DB) (a : User) (id : Nat) (st : String)
    (r : ℚ) (hrr : requireRole "board" a.role = true)
    (hst : validStatuses.contains st = true)
    (h1 : 1 ≤ r) (h5 : r ≤ 5)
    (habs : ∀ s ∈ db.submissions, s.id ≠ id) :
    patchSubmissionStatus db a id st = (.json 200 st, db) ∧
    patchSubmissionRating db a id (some r) = (.json 200 r, db) := by
  have hnotf : ¬ (requireRole "board" a.role = false) := by simp [hrr]
  have hmap1 : db.submissions.map (fun s =>
      if s.id == id then { s with status := st } else s) = db.submissions := by
    apply map_id_of_fixed
    intro s hs
    rw [if_neg (by simp [habs s hs])]
  have hmap2 : db.submissions.map (fun s =>
      if s.id == id then { s with rating := some r } else s) = db.submissions := by
    apply map_id_of_fixed
    intro s hs
    rw [if_neg (by simp [habs s hs])]
  constructor
  · have hvalid : ¬ ((validStatuses.contains st) = false) := by rw [hst]; simp
    unfold patchSubmissionStatus
    rw [if_neg hnotf, if_neg hvalid, hmap1]
  · have hcond : ¬ (r = 0 ∨ r < 1 ∨ r > 5) := by
      push_neg
      refine ⟨?_, by linarith, by linarith⟩
      intro h0
      rw [h0] at h1
      linarith
    unfold patchSubmissionRating
    rw [if_neg hnotf]
    dsimp only
    rw [if_neg hcond, hmap2]

/-- Witness for C10: updating status and rating of the absent id 99 at the
sample state answers success and leaves the state untouched. -/
theorem c10_witness :
    patchSubmissionStatus sampleDB uBoard 99 "approved" =
      (.json 200 "approved", sampleDB) ∧
    patchSubmissionRating sampleDB uBoard 99 (some 4) =
      (.json 200 4, sampleDB) :=
  c10_missing_id_update sampleDB uBoard 99 "approved" 4 (by decide) (by decide)
    (by norm_num) (by norm_num) (by decide)

end PartnerBackend
